import Mathlib

/-!
Shallow embedding of the task-runner service (`main.py`).

Time is modelled by rational numbers: every call the Python code makes to
`datetime.now()` becomes an explicit parameter, so elapsed-time arithmetic
(`total_seconds` of a difference) is exact subtraction on `ℚ`.  The Work
Unit (`simulate_work`) is pluggable in the source; its only observable
contract is completes-or-fails, so it is embedded as an
`Except String Unit` outcome parameter (the `String` is the error text
`str(e)`).  The global mutable list `task_results` becomes explicit state
passing: each handler takes the current store and returns the new one.
-/

namespace TaskRunner

/-- `TaskResult` pydantic model from the source. -/
structure TaskResult where
  task_id : String
  status : String
  message : String
  timestamp : ℚ
  duration_seconds : ℚ
deriving Repr, DecidableEq

/-- `HealthResponse` pydantic model from the source. -/
structure HealthResponse where
  status : String
  timestamp : ℚ
  uptime_seconds : ℚ
deriving Repr, DecidableEq

/-- FastAPI `HTTPException(status_code=..., detail=...)`. -/
structure HTTPException where
  status_code : Nat
  detail : String
deriving Repr, DecidableEq

/-- The id string `f"task_{n}"` built at the top of `run_main_task`. -/
def mkTaskId (n : Nat) : String :=
  "task_" ++ Nat.repr n

/--
`run_main_task` (`POST /run-task`).  Parameters beyond the store:
`work` is the outcome of `await simulate_work()`; `task_start` is the
`datetime.now()` read before the work, `t_dur` the one used for the
duration, `t_ts` the one stored as `timestamp`.  Returns the new store
and either the `TaskResult` returned on line 116 or the
`HTTPException` raised on line 131.
-/
def run_main_task (task_results : List TaskResult) (work : Except String Unit)
    (task_start t_dur t_ts : ℚ) :
    List TaskResult × Except HTTPException TaskResult :=
  let task_id := mkTaskId (task_results.length + 1)
  match work with
  | Except.ok _ =>
      let duration := t_dur - task_start
      let result : TaskResult :=
        { task_id := task_id
          status := "completed"
          message := "Task completed successfully"
          timestamp := t_ts
          duration_seconds := duration }
      (task_results ++ [result], Except.ok result)
  | Except.error e =>
      let duration := t_dur - task_start
      let error_result : TaskResult :=
        { task_id := task_id
          status := "failed"
          message := "Task failed: " ++ e
          timestamp := t_ts
          duration_seconds := duration }
      (task_results ++ [error_result],
        Except.error { status_code := 500, detail := "Task failed: " ++ e })

/--
`get_task_result` (`GET /tasks/{task_id}`): linear scan of `task_results`
returning the first entry whose `task_id` matches, else a 404.
-/
def get_task_result (task_results : List TaskResult) (task_id : String) :
    Except HTTPException TaskResult :=
  match task_results.find? (fun r => r.task_id == task_id) with
  | some r => Except.ok r
  | none => Except.error { status_code := 404, detail := "Task not found" }

/-- `health_check` (`GET /health`): derives uptime from `start_time`. -/
def health_check (start_time now : ℚ) : HealthResponse :=
  { status := "healthy"
    timestamp := now
    uptime_seconds := now - start_time }

/-- The process-global mutable state: `start_time` and `task_results`. -/
structure ServerState where
  start_time : ℚ
  task_results : List TaskResult
deriving Repr, DecidableEq

/-- An incoming HTTP request, with the clock readings and Work Unit
outcome the corresponding handler would observe. -/
inductive Request where
  | runTask (work : Except String Unit) (task_start t_dur t_ts : ℚ)
  | getTasks
  | getTask (task_id : String)
  | health (now : ℚ)
  | root (now : ℚ)
deriving Repr

/-- A handler response body (or raised `HTTPException`). -/
inductive Response where
  | taskResult (r : TaskResult)
  | taskList (rs : List TaskResult)
  | healthResp (h : HealthResponse)
  | rootResp (message status : String) (start_time uptime_seconds : ℚ)
  | httpError (e : HTTPException)
deriving Repr, DecidableEq

/-- A process-level effect: the `asyncio.sleep` delays, one Task Runner
invocation, `os.kill(os.getpid(), signal.SIGTERM)`, and `sys.exit`. -/
inductive ProcAction where
  | sleep (seconds : Nat)
  | invokeTask
  | sendSigterm
  | exitProcess (code : Nat)
deriving Repr, DecidableEq

/--
One HTTP request dispatched to its handler.  None of the endpoint
handlers in the source touches `start_time` or performs any
process-level call, so `start_time` is copied through and the
`ProcAction` trace of every endpoint is empty; only `run_main_task`
writes to `task_results`.
-/
def handle (s : ServerState) (req : Request) :
    ServerState × Response × List ProcAction :=
  match req with
  | Request.runTask work task_start t_dur t_ts =>
      let out := run_main_task s.task_results work task_start t_dur t_ts
      ({ s with task_results := out.1 },
        (match out.2 with
         | Except.ok r => Response.taskResult r
         | Except.error e => Response.httpError e),
        [])
  | Request.getTasks => (s, Response.taskList s.task_results, [])
  | Request.getTask task_id =>
      (s,
        (match get_task_result s.task_results task_id with
         | Except.ok r => Response.taskResult r
         | Except.error e => Response.httpError e),
        [])
  | Request.health now => (s, Response.healthResp (health_check s.start_time now), [])
  | Request.root now =>
      (s, Response.rootResp "FASTAPISCRIPT Scheduled Runner" "running"
        s.start_time (now - s.start_time), [])

/--
`auto_run_task` startup hook: sleeps 2 seconds, calls `run_main_task`
directly; on success sleeps 5 more seconds then SIGTERMs itself; the
`HTTPException` raised by a failed run is caught by the `except` block,
which calls `sys.exit(1)`.  Returns the store left behind and the trace
of process-level effects in execution order.
-/
def auto_run_task (task_results : List TaskResult) (work : Except String Unit)
    (task_start t_dur t_ts : ℚ) :
    List TaskResult × List ProcAction :=
  let out := run_main_task task_results work task_start t_dur t_ts
  match out.2 with
  | Except.ok _ =>
      (out.1, [ProcAction.sleep 2, ProcAction.invokeTask,
               ProcAction.sleep 5, ProcAction.sendSigterm])
  | Except.error _ =>
      (out.1, [ProcAction.sleep 2, ProcAction.invokeTask,
               ProcAction.exitProcess 1])

/-- The observations (`datetime.now()` readings and Work Unit outcome)
of one sequential task run. -/
structure RunInput where
  work : Except String Unit
  task_start : ℚ
  t_dur : ℚ
  t_ts : ℚ
deriving Repr

/-- A sequence of non-overlapping `run_main_task` invocations, each
starting from the store the previous one left behind. -/
def runSeq (inputs : List RunInput) (s : List TaskResult) : List TaskResult :=
  match inputs with
  | [] => s
  | i :: rest => runSeq rest (run_main_task s i.work i.task_start i.t_dur i.t_ts).1

/-! ### Decimal-numeral helpers

`mkTaskId` builds its numeral with `Nat.repr`; to reason about
distinctness and ordering of the generated ids we prove the round trip
`readDigits (Nat.toDigits 10 n) = n` for the core digit printer. -/

/-- Numeric value of a decimal digit character. -/
def chVal (c : Char) : Nat := c.toNat - 48

/-- Read a list of decimal digit characters back into a number. -/
def readDigits (l : List Char) : Nat :=
  l.foldl (fun a c => 10 * a + chVal c) 0

lemma readDigits_append (xs ys : List Char) :
    readDigits (xs ++ ys) = ys.foldl (fun a c => 10 * a + chVal c) (readDigits xs) := by
  simp [readDigits, List.foldl_append]

lemma chVal_digitChar (d : Nat) (h : d < 10) : chVal (Nat.digitChar d) = d := by
  interval_cases d <;> decide

lemma toDigitsCore_append (fuel : Nat) :
    ∀ (n : Nat) (ds : List Char),
      Nat.toDigitsCore 10 fuel n ds = Nat.toDigitsCore 10 fuel n [] ++ ds := by
  induction fuel with
  | zero => intro n ds; simp [Nat.toDigitsCore]
  | succ f ih =>
      intro n ds
      simp only [Nat.toDigitsCore]
      by_cases h : n / 10 = 0
      · simp [h]
      · simp only [h, if_false]
        rw [ih (n / 10) (Nat.digitChar (n % 10) :: ds),
            ih (n / 10) [Nat.digitChar (n % 10)]]
        simp

lemma readDigits_toDigitsCore (fuel : Nat) :
    ∀ n : Nat, n < fuel → readDigits (Nat.toDigitsCore 10 fuel n []) = n := by
  induction fuel with
  | zero => intro n h; omega
  | succ f ih =>
      intro n h
      simp only [Nat.toDigitsCore]
      by_cases h0 : n / 10 = 0
      · have hn : n < 10 := (Nat.div_eq_zero_iff (by norm_num)).mp h0
        simp only [h0, if_true]
        show readDigits [Nat.digitChar (n % 10)] = n
        have hv : readDigits [Nat.digitChar (n % 10)] = chVal (Nat.digitChar (n % 10)) := by
          simp [readDigits]
        rw [hv, chVal_digitChar _ (Nat.mod_lt _ (by norm_num))]
        omega
      · simp only [h0, if_false]
        rw [toDigitsCore_append, readDigits_append]
        have hpos : 0 < n := by
          rcases Nat.eq_zero_or_pos n with h1 | h1
          · exfalso; apply h0; simp [h1]
          · exact h1
        have h1 : n / 10 < f := by
          have := Nat.div_lt_self hpos (by norm_num : (1 : Nat) < 10)
          omega
        rw [ih _ h1]
        simp only [List.foldl_cons, List.foldl_nil]
        rw [chVal_digitChar _ (Nat.mod_lt _ (by norm_num))]
        omega

lemma readDigits_toDigits (n : Nat) : readDigits (Nat.toDigits 10 n) = n :=
  readDigits_toDigitsCore (n + 1) n (Nat.lt_succ_self n)

lemma mkTaskId_inj : Function.Injective mkTaskId := by
  intro m n h
  have hd := congrArg String.data h
  simp only [mkTaskId, String.data_append] at hd
  have h2 : (Nat.repr m).data = (Nat.repr n).data := List.append_cancel_left hd
  have h3 : Nat.toDigits 10 m = Nat.toDigits 10 n := h2
  have h4 := congrArg readDigits h3
  rwa [readDigits_toDigits, readDigits_toDigits] at h4

/-- The sequence number carried by a generated task id: the decimal
numeral after the 5-character marker `task_`. -/
def idNum (s : String) : Nat := readDigits (s.data.drop 5)

lemma idNum_mkTaskId (n : Nat) : idNum (mkTaskId n) = n := by
  have hdata : (mkTaskId n).data = "task_".data ++ (Nat.repr n).data := by
    simp [mkTaskId, String.data_append]
  rw [idNum, hdata]
  have h5 : ("task_".data).length = 5 := rfl
  rw [← h5, List.drop_left]
  exact readDigits_toDigits n

/-! ### Behaviour of one `run_main_task` invocation -/

/-- The record `run_main_task` appends, as a function of the store
length and the observations of the run. -/
def newResult (n : Nat) (work : Except String Unit)
    (task_start t_dur t_ts : ℚ) : TaskResult :=
  match work with
  | Except.ok _ =>
      { task_id := mkTaskId n
        status := "completed"
        message := "Task completed successfully"
        timestamp := t_ts
        duration_seconds := t_dur - task_start }
  | Except.error e =>
      { task_id := mkTaskId n
        status := "failed"
        message := "Task failed: " ++ e
        timestamp := t_ts
        duration_seconds := t_dur - task_start }

lemma run_main_task_fst (s : List TaskResult) (w : Except String Unit)
    (t1 t2 t3 : ℚ) :
    (run_main_task s w t1 t2 t3).1 = s ++ [newResult (s.length + 1) w t1 t2 t3] := by
  cases w <;> rfl

lemma newResult_task_id (n : Nat) (w : Except String Unit) (t1 t2 t3 : ℚ) :
    (newResult n w t1 t2 t3).task_id = mkTaskId n := by
  cases w <;> rfl

lemma newResult_duration (n : Nat) (w : Except String Unit) (t1 t2 t3 : ℚ) :
    (newResult n w t1 t2 t3).duration_seconds = t2 - t1 := by
  cases w <;> rfl

/-! ### Sequential runs -/

lemma runSeq_map_task_id (inputs : List RunInput) :
    ∀ s : List TaskResult,
      (runSeq inputs s).map TaskResult.task_id
        = s.map TaskResult.task_id
            ++ (List.range inputs.length).map (fun i => mkTaskId (s.length + i + 1)) := by
  induction inputs with
  | nil => intro s; simp [runSeq]
  | cons i rest ih =>
      intro s
      simp only [runSeq]
      rw [run_main_task_fst, ih]
      have hlen : (s ++ [newResult (s.length + 1) i.work i.task_start i.t_dur i.t_ts]).length
          = s.length + 1 := by simp
      rw [hlen, List.map_append, List.append_assoc]
      simp only [List.length_cons]
      rw [List.range_succ_eq_map]
      simp only [List.map_cons, List.map_map, List.map_nil, List.nil_append,
        newResult_task_id, Function.comp_def, List.singleton_append]
      congr 1
      congr 1
      apply List.map_congr_left
      intro a _
      congr 1
      omega

lemma runSeq_length (inputs : List RunInput) (s : List TaskResult) :
    (runSeq inputs s).length = s.length + inputs.length := by
  have h := congrArg List.length (runSeq_map_task_id inputs s)
  simpa using h

/-- A linear scan of a store whose earlier entries all miss `id` finds
the first matching entry. -/
lemma find_first_match (id : String) :
    ∀ s1 : List TaskResult, (∀ x ∈ s1, x.task_id ≠ id) →
      ∀ (r : TaskResult) (s2 : List TaskResult), r.task_id = id →
        (s1 ++ r :: s2).find? (fun x => x.task_id == id) = some r := by
  intro s1
  induction s1 with
  | nil =>
      intro _ r s2 hr
      rw [List.nil_append]
      exact List.find?_cons_of_pos _ (by simp [hr])
  | cons x xs ih =>
      intro h r s2 hr
      have hx : x.task_id ≠ id := h x (by simp)
      rw [List.cons_append, List.find?_cons_of_neg _ (by simp [hx])]
      exact ih (fun y hy => h y (by simp [hy])) r s2 hr

/-- When task ids are pairwise distinct, the linear scan returns the
(unique) stored entry with the requested id. -/
lemma find_of_nodup :
    ∀ (s : List TaskResult) (r : TaskResult),
      (s.map TaskResult.task_id).Nodup → r ∈ s →
      s.find? (fun x => x.task_id == r.task_id) = some r := by
  intro s
  induction s with
  | nil => intro r _ hr; simp at hr
  | cons x xs ih =>
      intro r hnd hr
      rw [List.map_cons, List.nodup_cons] at hnd
      obtain ⟨hnd1, hnd2⟩ := hnd
      rcases List.mem_cons.mp hr with h1 | h1
      · subst h1
        exact List.find?_cons_of_pos _ (by simp)
      · by_cases hx : x.task_id = r.task_id
        · exact absurd (hx ▸ List.mem_map_of_mem TaskResult.task_id h1) hnd1
        · rw [List.find?_cons_of_neg _ (by simp [hx])]
          exact ih r hnd2 h1

/-!
## Claim theorems
-/

/-- C1: over any sequence of N non-overlapping task runs starting from
the empty store, the Result Store holds exactly N entries, whose
`task_id` values are the strings `task_1 .. task_N` in append order —
hence pairwise distinct and strictly increasing (by sequence number) in
completion order — and no request handler ever removes or mutates an
entry: the old store is always an initial segment of the new one. -/
theorem seq_runs_store_invariant (inputs : List RunInput) :
    (runSeq inputs []).length = inputs.length
    ∧ (runSeq inputs []).map TaskResult.task_id
        = (List.range inputs.length).map (fun i => mkTaskId (i + 1))
    ∧ ((runSeq inputs []).map TaskResult.task_id).Nodup
    ∧ ((runSeq inputs []).map TaskResult.task_id).Pairwise (fun a b => idNum a < idNum b)
    ∧ ∀ (st : ServerState) (req : Request),
        st.task_results <+: (handle st req).1.task_results := by
  have hmap : (runSeq inputs []).map TaskResult.task_id
      = (List.range inputs.length).map (fun i => mkTaskId (i + 1)) := by
    have h := runSeq_map_task_id inputs []
    simpa using h
  refine ⟨?_, hmap, ?_, ?_, ?_⟩
  · have h := runSeq_length inputs []
    simpa using h
  · rw [hmap]
    refine List.Nodup.map ?_ (List.nodup_range _)
    intro a b hab
    have := mkTaskId_inj hab
    omega
  · rw [hmap]
    refine List.Pairwise.map _ ?_ (List.pairwise_lt_range _)
    intro a b hab
    rw [idNum_mkTaskId, idNum_mkTaskId]
    omega
  · intro st req
    cases req with
    | runTask w t1 t2 t3 =>
        refine ⟨[newResult (st.task_results.length + 1) w t1 t2 t3], ?_⟩
        simp [handle, run_main_task_fst]
    | getTasks => exact ⟨[], by simp [handle]⟩
    | getTask id => exact ⟨[], by simp [handle]⟩
    | health now => exact ⟨[], by simp [handle]⟩
    | root now => exact ⟨[], by simp [handle]⟩

/-- C2: every invocation of the task runner appends one record whose
`task_id` is the string `task_<n>` with `n` = store length before the
run plus 1, and the result returned on the completed path carries that
same id (the appended record covers the failed path as well). -/
theorem task_id_generation (s : List TaskResult) (w : Except String Unit)
    (t1 t2 t3 : ℚ) :
    ∃ r, (run_main_task s w t1 t2 t3).1 = s ++ [r]
      ∧ r.task_id = mkTaskId (s.length + 1)
      ∧ mkTaskId (s.length + 1) = "task_" ++ Nat.repr (s.length + 1)
      ∧ ∀ res, (run_main_task s w t1 t2 t3).2 = Except.ok res
          → res.task_id = mkTaskId (s.length + 1) := by
  refine ⟨newResult (s.length + 1) w t1 t2 t3, run_main_task_fst s w t1 t2 t3,
    newResult_task_id _ _ _ _ _, rfl, ?_⟩
  intro res h
  cases w with
  | ok u =>
      injection h with h3
      rw [← h3]
  | error e =>
      exact Except.noConfusion h

/-- C2 witness: concrete first run from the empty store. -/
theorem task_id_generation_witness :
    ∃ r, (run_main_task [] (Except.ok ()) 0 1 2).1 = [] ++ [r]
      ∧ r.task_id = mkTaskId (List.length ([] : List TaskResult) + 1)
      ∧ mkTaskId (List.length ([] : List TaskResult) + 1)
          = "task_" ++ Nat.repr (List.length ([] : List TaskResult) + 1)
      ∧ ∀ res, (run_main_task [] (Except.ok ()) 0 1 2).2 = Except.ok res
          → res.task_id = mkTaskId (List.length ([] : List TaskResult) + 1) :=
  task_id_generation [] (Except.ok ()) 0 1 2

/-- C3: when the Work Unit fails with error text `e`, the runner appends
exactly one `failed` record whose message embeds `e`, and in the same
step signals an `HTTPException` to its caller instead of a normal
result — the record and the error are produced together, atomically. -/
theorem failed_run_recorded_and_signalled (s : List TaskResult) (e : String)
    (t1 t2 t3 : ℚ) :
    ∃ r, run_main_task s (Except.error e) t1 t2 t3
          = (s ++ [r], Except.error { status_code := 500, detail := "Task failed: " ++ e })
      ∧ r.status = "failed"
      ∧ r.message = "Task failed: " ++ e
      ∧ e.data <:+: r.message.data := by
  refine ⟨newResult (s.length + 1) (Except.error e) t1 t2 t3, rfl, rfl, rfl, ?_⟩
  refine ⟨("Task failed: ").data, [], ?_⟩
  simp [newResult, String.data_append]

/-- C5: a Work Unit failure makes `POST /run-task` raise status 500 with
detail `Task failed: <e>`; that detail equals the message of the failed
record appended for the run and contains the underlying error text. -/
theorem failed_run_http_500 (s : List TaskResult) (e : String) (t1 t2 t3 : ℚ) :
    ∃ r err, run_main_task s (Except.error e) t1 t2 t3 = (s ++ [r], Except.error err)
      ∧ err.status_code = 500
      ∧ err.detail = "Task failed: " ++ e
      ∧ err.detail = r.message
      ∧ e.data <:+: err.detail.data := by
  refine ⟨newResult (s.length + 1) (Except.error e) t1 t2 t3,
    { status_code := 500, detail := "Task failed: " ++ e }, rfl, rfl, rfl, rfl, ?_⟩
  exact ⟨("Task failed: ").data, [], by simp [String.data_append]⟩

/-- C4: looking up a stored id returns exactly the entry appended under
it (ids being unique for sequential runs), looking up an id never
issued returns a 404 `Task not found` error rather than crashing, and
either way the lookup leaves the server state unchanged. -/
theorem get_task_lookup (s : ServerState) (id : String) :
    (handle s (Request.getTask id)).1 = s
    ∧ ((∀ x ∈ s.task_results, x.task_id ≠ id) →
        get_task_result s.task_results id
          = Except.error { status_code := 404, detail := "Task not found" })
    ∧ ∀ r, (s.task_results.map TaskResult.task_id).Nodup → r ∈ s.task_results →
        r.task_id = id → get_task_result s.task_results id = Except.ok r := by
  refine ⟨rfl, ?_, ?_⟩
  · intro h
    have hnone : s.task_results.find? (fun x => x.task_id == id) = none :=
      List.find?_eq_none.mpr (fun x hx => by simpa using h x hx)
    simp [get_task_result, hnone]
  · intro r hnd hmem hid
    subst hid
    have hfind := find_of_nodup s.task_results r hnd hmem
    simp [get_task_result, hfind]

/-- C4 witness: a one-entry store hit and a miss, both concrete. -/
theorem get_task_lookup_witness :
    get_task_result [⟨"task_1", "completed", "Task completed successfully", 5, 2⟩] "task_1"
      = Except.ok ⟨"task_1", "completed", "Task completed successfully", 5, 2⟩
    ∧ get_task_result [⟨"task_1", "completed", "Task completed successfully", 5, 2⟩] "task_2"
      = Except.error { status_code := 404, detail := "Task not found" } := by
  constructor
  · exact (get_task_lookup
      ⟨0, [⟨"task_1", "completed", "Task completed successfully", 5, 2⟩]⟩ "task_1").2.2
      ⟨"task_1", "completed", "Task completed successfully", 5, 2⟩
      (by decide) (by decide) rfl
  · exact (get_task_lookup
      ⟨0, [⟨"task_1", "completed", "Task completed successfully", 5, 2⟩]⟩ "task_2").2.1
      (by decide)

/-- C6: the recorded `duration_seconds` equals the clock span between
the start reading of the run and the completion/failure reading, on both
paths, and is non-negative whenever the clock did not go backwards. -/
theorem duration_nonneg_elapsed (s : List TaskResult) (w : Except String Unit)
    (t1 t2 t3 : ℚ) (h : t1 ≤ t2) :
    ∃ r, (run_main_task s w t1 t2 t3).1 = s ++ [r]
      ∧ r.duration_seconds = t2 - t1
      ∧ 0 ≤ r.duration_seconds := by
  refine ⟨newResult (s.length + 1) w t1 t2 t3, run_main_task_fst s w t1 t2 t3,
    newResult_duration _ _ _ _ _, ?_⟩
  rw [newResult_duration]
  linarith

/-- C6 witness: a run observed at clock readings 0 and 3. -/
theorem duration_nonneg_elapsed_witness :
    (0 : ℚ) ≤ 3
    ∧ ∃ r, (run_main_task [] (Except.ok ()) 0 3 4).1 = [] ++ [r]
      ∧ r.duration_seconds = 3 - 0
      ∧ 0 ≤ r.duration_seconds :=
  ⟨by norm_num, duration_nonneg_elapsed [] (Except.ok ()) 0 3 4 (by norm_num)⟩

/-- C7: a task failure is fatal only on the startup auto-run — there it
exits the process with status 1 and never reaches the SIGTERM step —
while no HTTP endpoint (in particular a failing `POST /run-task`) ever
performs any process-level action: its trace is always empty. -/
theorem failure_fatal_only_on_auto_run :
    (∀ (s : List TaskResult) (e : String) (t1 t2 t3 : ℚ),
        (auto_run_task s (Except.error e) t1 t2 t3).2
          = [ProcAction.sleep 2, ProcAction.invokeTask, ProcAction.exitProcess 1]
        ∧ ProcAction.sendSigterm ∉ (auto_run_task s (Except.error e) t1 t2 t3).2)
    ∧ ∀ (st : ServerState) (req : Request), (handle st req).2.2 = [] := by
  constructor
  · intro s e t1 t2 t3
    refine ⟨rfl, ?_⟩
    show ProcAction.sendSigterm ∉
      [ProcAction.sleep 2, ProcAction.invokeTask, ProcAction.exitProcess 1]
    decide
  · intro st req
    cases req <;> rfl

/-- C8: the auto-run trace is, in order: warm-up sleep of 2, one Task
Runner invocation, and — only on success — a flush sleep of 5 followed
by the self-addressed termination signal; a failed run instead exits,
and either way the Task Runner is invoked exactly once. -/
theorem auto_run_sequence (s : List TaskResult) (t1 t2 t3 : ℚ) :
    (auto_run_task s (Except.ok ()) t1 t2 t3).2
        = [ProcAction.sleep 2, ProcAction.invokeTask,
           ProcAction.sleep 5, ProcAction.sendSigterm]
    ∧ (∀ e, (auto_run_task s (Except.error e) t1 t2 t3).2
        = [ProcAction.sleep 2, ProcAction.invokeTask, ProcAction.exitProcess 1])
    ∧ ∀ w, ((auto_run_task s w t1 t2 t3).2).count ProcAction.invokeTask = 1 := by
  refine ⟨rfl, fun e => rfl, fun w => ?_⟩
  cases w <;> rfl

/-- C9: the health endpoint always succeeds, answering exactly
`healthy` with uptime `now - start_time`, with no side effects: the
server state is returned untouched, and no request handler whatsoever
ever changes `start_time`. -/
theorem health_check_pure (st : ServerState) (now : ℚ) :
    handle st (Request.health now)
      = (st, Response.healthResp
          { status := "healthy", timestamp := now,
            uptime_seconds := now - st.start_time }, [])
    ∧ ∀ (s : ServerState) (req : Request), (handle s req).1.start_time = s.start_time := by
  refine ⟨rfl, ?_⟩
  intro s req
  cases req <;> rfl

/-- C10: on a store that already holds several entries with the same id
(as two interleaved runs can produce), the lookup returns the
earliest-appended matching entry and still leaves the state unchanged. -/
theorem get_task_duplicate_returns_earliest (st0 : ℚ) (s1 s2 : List TaskResult)
    (r : TaskResult) (id : String)
    (h1 : ∀ x ∈ s1, x.task_id ≠ id) (h2 : r.task_id = id) :
    get_task_result (s1 ++ r :: s2) id = Except.ok r
    ∧ (handle { start_time := st0, task_results := s1 ++ r :: s2 }
          (Request.getTask id)).1
        = { start_time := st0, task_results := s1 ++ r :: s2 } := by
  refine ⟨?_, rfl⟩
  have hfind := find_first_match id s1 h1 r s2 h2
  simp [get_task_result, hfind]

/-- C10 witness: a store with two `task_1` entries returns the earlier
one. -/
theorem get_task_duplicate_returns_earliest_witness :
    get_task_result
        ([] ++ (⟨"task_1", "completed", "first", 1, 1⟩ : TaskResult)
            :: [⟨"task_1", "failed", "second", 2, 1⟩]) "task_1"
      = Except.ok ⟨"task_1", "completed", "first", 1, 1⟩
    ∧ (handle
          ⟨0, [] ++ (⟨"task_1", "completed", "first", 1, 1⟩ : TaskResult)
            :: [⟨"task_1", "failed", "second", 2, 1⟩]⟩
          (Request.getTask "task_1")).1
        = ⟨0, [] ++ (⟨"task_1", "completed", "first", 1, 1⟩ : TaskResult)
            :: [⟨"task_1", "failed", "second", 2, 1⟩]⟩ :=
  get_task_duplicate_returns_earliest 0 [] [⟨"task_1", "failed", "second", 2, 1⟩]
    ⟨"task_1", "completed", "first", 1, 1⟩ "task_1" (by decide) rfl

end TaskRunner
